import Mathlib

set_option autoImplicit false

/-!
Verification of the orchestration core of the `lionagi-qe-fleet` repository.

The Python sources embedded here are `src/lionagi_qe/core/orchestrator.py`,
`src/lionagi_qe/core/base_agent.py` and `src/lionagi_qe/core/fleet.py`.
The modules `lionagi_qe.core.task` (class `QETask`), `lionagi_qe.core.memory`
(class `QEMemory`) and `lionagi_qe.core.router` are imported by those files but
their sources are not part of the repository snapshot; they are modelled from
the specification (§3, §4.1, §4.2), as are the two lionagi library primitives
the orchestrator delegates to (`lionagi.ln.alcall`, the Bounded Parallel
Executor of §4.4, and `lionagi.Session.flow`, §4.5/§5).  Machine arithmetic
plays no role: all counters are unbounded Python ints, modelled by `Nat`.
-/

/-- Opaque payload values exchanged between agents: the fragment of Python
values (str / int / bool / list / dict / None) that the orchestration core
passes around without interpreting. -/
inductive Val where
  | vstr : String → Val
  | vnat : Nat → Val
  | vbool : Bool → Val
  | vlist : List Val → Val
  | vdict : List (String × Val) → Val
  | vnone : Val

/-- Task lifecycle states, §4.2: `PENDING → IN_PROGRESS → (COMPLETED | FAILED)`. -/
inductive TaskStatus where
  | pending
  | in_progress
  | completed
  | failed
deriving DecidableEq

/-- Python exceptions raised by the embedded code: `ValueError` (registry
lookup failures in `orchestrator.py`), `TaskStateError` (invalid task
transitions, §7) and opaque exceptions coming out of an agent or out of the
memory backend. -/
inductive PyErr where
  | valueError : String → PyErr
  | taskStateError : String → PyErr
  | genericError : String → PyErr
deriving DecidableEq

/-- `str(e)`: the message carried by an exception. -/
def PyErr.msg : PyErr → String
  | .valueError s => s
  | .taskStateError s => s
  | .genericError s => s

/-- Modelled from the spec: the module `lionagi_qe.core.task` (class `QETask`)
is imported by `orchestrator.py`, `base_agent.py` and `fleet.py` but its source
file is missing from the repository snapshot.  Fields follow §3 "Task":
identity, kind tag, opaque context mapping, lifecycle state, mutually
exclusive `result`/`error`, and the dispatching agent id. -/
structure QETask where
  task_id : String
  task_type : String
  context : List (String × Val)
  status : TaskStatus
  result : Option Val
  error : Option String
  agent_id : Option String

/-- A freshly created task: `PENDING`, no result, no error, no agent. -/
def QETask.create (id ttype : String) (ctx : List (String × Val)) : QETask :=
  { task_id := id, task_type := ttype, context := ctx,
    status := TaskStatus.pending, result := none, error := none,
    agent_id := none }

/-- Modelled from the spec (§4.2): `mark_in_progress(agent_id)` is legal only
from `PENDING`; it records the agent id.  Any other source state raises
`TaskStateError`. -/
def QETask.mark_in_progress (t : QETask) (aid : String) : Except PyErr QETask :=
  if t.status = TaskStatus.pending then
    .ok { t with status := TaskStatus.in_progress, agent_id := some aid }
  else
    .error (.taskStateError ("cannot mark in progress: task " ++ t.task_id ++ " is not pending"))

/-- Modelled from the spec (§4.2): `mark_completed(result)` is legal only from
`IN_PROGRESS`; it sets `result`.  Any other source state raises
`TaskStateError`. -/
def QETask.mark_completed (t : QETask) (r : Val) : Except PyErr QETask :=
  if t.status = TaskStatus.in_progress then
    .ok { t with status := TaskStatus.completed, result := some r }
  else
    .error (.taskStateError ("cannot complete: task " ++ t.task_id ++ " is not in progress"))

/-- Modelled from the spec (§4.2): `mark_failed(error_message)` is legal only
from `IN_PROGRESS`; it sets `error`.  Any other source state raises
`TaskStateError`. -/
def QETask.mark_failed (t : QETask) (msg : String) : Except PyErr QETask :=
  if t.status = TaskStatus.in_progress then
    .ok { t with status := TaskStatus.failed, error := some msg }
  else
    .error (.taskStateError ("cannot fail: task " ++ t.task_id ++ " is not in progress"))

/-- One entry of the coordination store: value, logical partition, optional
absolute expiry time (seconds). -/
structure MemEntry where
  value : Val
  partition : String
  expires_at : Option Nat

/-- An entry is readable at time `now` iff it has no expiry or has not yet
reached it (an entry stored with `ttl` at time `s` expires at `s + ttl`, and
`retrieve`/`search` after that behave as if the key were absent, §4.1/§8). -/
def MemEntry.alive (e : MemEntry) (now : Nat) : Bool :=
  match e.expires_at with
  | none => true
  | some x => decide (now < x)

/-- Modelled from the spec: the module `lionagi_qe.core.memory` (class
`QEMemory`) is imported by the core files but its source is missing from the
repository snapshot.  Per §4.1 it is a namespaced key-value store with
per-entry TTL and last-writer-wins overwrite.  Entries are kept as an
association list whose head shadows nothing: `store` removes the old binding
of the key. -/
structure QEMemory where
  entries : List (String × MemEntry)

/-- Modelled from the spec (§4.1): `store(key, value, ttl?, partition?)`
upserts unconditionally; a `ttl` makes the entry unreadable `ttl` seconds
after the call (absolute expiry `now + ttl`). -/
def QEMemory.store (m : QEMemory) (now : Nat) (key : String) (value : Val)
    (ttl : Option Nat) (partition : String) : QEMemory :=
  { entries := (key, { value := value, partition := partition,
                       expires_at := ttl.map (fun s => now + s) })
      :: m.entries.filter (fun kv => kv.1 != key) }

/-- Modelled from the spec (§4.1): `retrieve(key)` returns the current value
or absent; an expired entry behaves as if the key did not exist. -/
def QEMemory.retrieve (m : QEMemory) (now : Nat) (key : String) : Option Val :=
  match m.entries.find? (fun kv => kv.1 == key) with
  | some kv => if kv.2.alive now then some kv.2.value else none
  | none => none

/-- Modelled from the spec (§4.1): `search(pattern)` returns all currently
non-expired entries whose key matches the regular expression.  The regex is
represented by an arbitrary boolean key predicate; the pattern `".*"` is
`fun _ => true`. -/
def QEMemory.search (m : QEMemory) (pat : String → Bool) (now : Nat) :
    List (String × Val) :=
  (m.entries.filter (fun kv => pat kv.1 && kv.2.alive now)).map
    (fun kv => (kv.1, kv.2.value))

/-- Modelled from the spec (§4.1/§6): `export_state()` serializes the full
store.  Expiry times are exported as absolute times (the "preserved as
absolute expiry" option of §6/§9). -/
def QEMemory.export_state (m : QEMemory) : List (String × MemEntry) :=
  m.entries

/-- Modelled from the spec (§4.1/§6): `import_state(snapshot)` fully restores
an exported store, replacing existing entries; absolute expiry times are
preserved. -/
def QEMemory.import_state (snapshot : List (String × MemEntry)) : QEMemory :=
  { entries := snapshot }

/-- Modelled from the spec (§4.1): `stats()` exposes at least the live entry
count. -/
def QEMemory.get_stats (m : QEMemory) (now : Nat) : Val :=
  .vdict [("entry_count", .vnat ((m.entries.filter (fun kv => kv.2.alive now)).length))]

/-- Does the (first) entry stored under `k` exist and remain readable at time
`now`? -/
def QEMemory.aliveKey (m : QEMemory) (now : Nat) (k : String) : Bool :=
  match m.entries.find? (fun kv => kv.1 == k) with
  | some kv => kv.2.alive now
  | none => false

/-- Per-agent metrics accumulator (`base_agent.py`, `self.metrics`). -/
structure AgentMetrics where
  tasks_completed : Nat
  tasks_failed : Nat
  total_cost : Nat
  patterns_learned : Nat
deriving DecidableEq

/-- Initial metrics block of a fresh agent. -/
def AgentMetrics.zero : AgentMetrics :=
  { tasks_completed := 0, tasks_failed := 0, total_cost := 0, patterns_learned := 0 }

/-- Orchestrator-level metrics (`orchestrator.py`, `self.metrics`). -/
structure OrchMetrics where
  workflows_executed : Nat
  total_agents_used : Nat
  total_cost : Nat
deriving DecidableEq

/-- The mutable world threaded through a dispatch: the shared coordination
store, every agent's metrics block, the orchestrator metrics, the current
time, and a counter modelling unique task-id generation (§3: task ids are
generated at creation). -/
structure World where
  mem : QEMemory
  agentMetrics : List (String × AgentMetrics)
  orch : OrchMetrics
  now : Nat
  nextId : Nat

/-- Metrics block of agent `aid` (fresh agents start at zero). -/
def World.getMetrics (w : World) (aid : String) : AgentMetrics :=
  match w.agentMetrics.find? (fun kv => kv.1 == aid) with
  | some kv => kv.2
  | none => AgentMetrics.zero

/-- Replace the metrics block of agent `aid`. -/
def World.setMetrics (w : World) (aid : String) (ms : AgentMetrics) : World :=
  { w with agentMetrics := (aid, ms) :: w.agentMetrics.filter (fun kv => kv.1 != aid) }

/-- The memory backend operation the agent hooks call
(`await self.memory.store(...)` in `base_agent.py`).  It is injected so that a
failing backend can be represented: the repository test
`test_agent_memory_error` mocks `memory.store` to raise. -/
structure MemOps where
  doStore : QEMemory → Nat → String → Val → Option Nat → String → Except PyErr QEMemory

/-- The normal backend: `store` always succeeds (the spec's store contract,
§4.1, has no failure mode). -/
def goodMemOps : MemOps :=
  { doStore := fun m now k v ttl p => .ok (m.store now k v ttl p) }

/-- A backend whose `store` always raises, as mocked by the repository test
`test_agent_memory_error` (`side_effect=Exception("Memory full")`). -/
def failingMemOps : MemOps :=
  { doStore := fun _ _ _ _ _ _ => .error (.genericError "Memory full") }

/-- The structured-instruction object handed to a coordinator
(`lionagi.fields.Instruct`): instruction text, context mapping, guidance. -/
structure Instruct where
  instruction : String
  context : List (String × Val)
  guidance : String

/-- `Instruct.to_dict()`: render the descriptor as a plain mapping. -/
def Instruct.to_dict (i : Instruct) : List (String × Val) :=
  [("instruction", .vstr i.instruction),
   ("context", .vdict i.context),
   ("guidance", .vstr i.guidance)]

/-- A registered agent: its id, the learning flag, and its three opaque
capabilities (§4.3/§6) — `execute(task)`, the structured `operate` used for
decomposition, and plain `communicate` used for synthesis and pipeline
stages.  Each either returns a value or raises; the orchestrator treats the
failure as opaque. -/
structure Agent where
  agent_id : String
  enable_learning : Bool
  executeFn : QETask → Except PyErr Val
  operateFn : Instruct → Except PyErr (List Instruct)
  communicateFn : String → List (String × Val) → Except PyErr Val

/-- `BaseQEAgent.store_result` (`base_agent.py` lines 87–104): store under the
namespaced key `aqe/{agent_id}/{key}`.  On backend failure the world is
unchanged and the exception propagates. -/
def Agent.store_result (ops : MemOps) (ag : Agent) (key : String) (value : Val)
    (ttl : Option Nat) (partition : String) (w : World) :
    Except PyErr Unit × World :=
  match ops.doStore w.mem w.now ("aqe/" ++ ag.agent_id ++ "/" ++ key) value ttl partition with
  | .error e => (.error e, w)
  | .ok m => (.ok (), { w with mem := m })

/-- `BaseQEAgent.pre_execution_hook` (`base_agent.py` lines 156–164): logging
only; never raises and mutates nothing. -/
def Agent.pre_execution_hook (_ag : Agent) (_t : QETask) (w : World) :
    Except PyErr Unit × World :=
  (.ok (), w)

/-- `BaseQEAgent._learn_from_execution` (`base_agent.py` lines 215–239): store
the labeled trajectory under the learning partition with a 30-day TTL. -/
def Agent.learn_from_execution (ops : MemOps) (ag : Agent) (t : QETask)
    (result : Val) (w : World) : Except PyErr Unit × World :=
  ag.store_result ops ("learning/trajectories/" ++ t.task_id)
    (.vdict [("task_type", .vstr t.task_type), ("context", .vdict t.context),
             ("result", result), ("success", .vbool true)])
    (some 2592000) "learning" w

/-- `BaseQEAgent.post_execution_hook` (`base_agent.py` lines 166–190):
increment `tasks_completed`, store the result under
`aqe/{agent_id}/tasks/{task_id}/result` with a 24-hour TTL, then optionally
learn.  The metric increment is an in-place mutation that survives a
subsequent store failure. -/
def Agent.post_execution_hook (ops : MemOps) (ag : Agent) (t : QETask)
    (result : Val) (w : World) : Except PyErr Unit × World :=
  let w1 := w.setMetrics ag.agent_id
    { w.getMetrics ag.agent_id with
      tasks_completed := (w.getMetrics ag.agent_id).tasks_completed + 1 }
  match ag.store_result ops ("tasks/" ++ t.task_id ++ "/result") result
      (some 86400) "agent_results" w1 with
  | (.error e, w2) => (.error e, w2)
  | (.ok _, w2) =>
      if ag.enable_learning then ag.learn_from_execution ops t result w2
      else (.ok (), w2)

/-- `BaseQEAgent.error_handler` (`base_agent.py` lines 192–213): increment
`tasks_failed` and store the error record under
`aqe/{agent_id}/tasks/{task_id}/error` with a 7-day TTL. -/
def Agent.error_handler (ops : MemOps) (ag : Agent) (t : QETask) (e : PyErr)
    (w : World) : Except PyErr Unit × World :=
  let w1 := w.setMetrics ag.agent_id
    { w.getMetrics ag.agent_id with
      tasks_failed := (w.getMetrics ag.agent_id).tasks_failed + 1 }
  ag.store_result ops ("tasks/" ++ t.task_id ++ "/error")
    (.vdict [("error", .vstr e.msg), ("task_type", .vstr t.task_type),
             ("context", .vdict t.context)])
    (some 604800) "agent_results" w1

/-- `QEOrchestrator.get_agent` / `self.agents.get(agent_id)`: registry lookup
(last registration shadows earlier ones, matching dict overwrite). -/
def lookupAgent (reg : List (String × Agent)) (aid : String) : Option Agent :=
  (reg.find? (fun kv => kv.1 == aid)).map (fun kv => kv.2)

/-- The `try` block of `QEOrchestrator.execute_agent` (`orchestrator.py`
lines 94–110): mark in progress, pre-hook, execute, post-hook, mark
completed.  The first exception aborts the rest of the block; the task and
world mutations made so far survive. -/
def executeAgentTry (ops : MemOps) (ag : Agent) (aid : String) (t : QETask) (w : World) :
    Except PyErr Val × QETask × World :=
  match t.mark_in_progress aid with
  | .error e => (.error e, t, w)
  | .ok t1 =>
    match ag.pre_execution_hook t1 w with
    | (.error e, w1) => (.error e, t1, w1)
    | (.ok _, w1) =>
      match ag.executeFn t1 with
      | .error e => (.error e, t1, w1)
      | .ok result =>
        match ag.post_execution_hook ops t1 result w1 with
        | (.error e, w2) => (.error e, t1, w2)
        | (.ok _, w2) =>
          match t1.mark_completed result with
          | .error e => (.error e, t1, w2)
          | .ok t2 => (.ok result, t2, w2)

/-- `QEOrchestrator.execute_agent` (`orchestrator.py` lines 76–116): registry
lookup (raising `ValueError` when absent), the `try` block above, and the
`except` clause that runs `error_handler`, `mark_failed(str(e))` and
re-raises.  An exception raised by the `except` clause itself replaces the
original one, exactly as in Python. -/
def executeAgent (ops : MemOps) (reg : List (String × Agent)) (aid : String)
    (t : QETask) (w : World) : Except PyErr Val × QETask × World :=
  match lookupAgent reg aid with
  | none => (.error (.valueError ("Agent not found: " ++ aid)), t, w)
  | some ag =>
    match executeAgentTry ops ag aid t w with
    | (.ok r, t1, w1) => (.ok r, t1, w1)
    | (.error e, t1, w1) =>
      match ag.error_handler ops t1 e w1 with
      | (.error e2, w2) => (.error e2, t1, w2)
      | (.ok _, w2) =>
        match t1.mark_failed e.msg with
        | .error e3 => (.error e3, t1, w2)
        | .ok t2 => (.error e, t2, w2)

/-- The in-progress task obtained from a freshly created task after
`mark_in_progress(agent_id)`. -/
def runningTask (tid tt : String) (ctx : List (String × Val)) (aid : String) : QETask :=
  { task_id := tid, task_type := tt, context := ctx,
    status := TaskStatus.in_progress, result := none, error := none,
    agent_id := some aid }

theorem mark_in_progress_create (tid tt : String) (ctx : List (String × Val)) (aid : String) :
    (QETask.create tid tt ctx).mark_in_progress aid = .ok (runningTask tid tt ctx aid) := rfl

theorem store_result_good (ag : Agent) (key : String) (v : Val) (ttl : Option Nat)
    (p : String) (w : World) :
    ag.store_result goodMemOps key v ttl p w =
      (.ok (), { w with mem := w.mem.store w.now ("aqe/" ++ ag.agent_id ++ "/" ++ key) v ttl p }) := rfl


theorem runningTask_status (tid tt : String) (ctx : List (String × Val)) (aid : String) :
    (runningTask tid tt ctx aid).status = TaskStatus.in_progress := rfl

theorem runningTask_task_id (tid tt : String) (ctx : List (String × Val)) (aid : String) :
    (runningTask tid tt ctx aid).task_id = tid := rfl

theorem runningTask_task_type (tid tt : String) (ctx : List (String × Val)) (aid : String) :
    (runningTask tid tt ctx aid).task_type = tt := rfl

theorem runningTask_context (tid tt : String) (ctx : List (String × Val)) (aid : String) :
    (runningTask tid tt ctx aid).context = ctx := rfl

/-- The world after a successful run of the post-execution hook over the
spec's (total) store backend: `tasks_completed` incremented, result persisted
with a 24-hour TTL, optionally a learning trajectory with a 30-day TTL. -/
def postWorldGood (ag : Agent) (t : QETask) (v : Val) (w : World) : World :=
  let w1 := w.setMetrics ag.agent_id
    { w.getMetrics ag.agent_id with
      tasks_completed := (w.getMetrics ag.agent_id).tasks_completed + 1 }
  let w2 := { w1 with
    mem := w1.mem.store w1.now
      ("aqe/" ++ ag.agent_id ++ "/" ++ ("tasks/" ++ t.task_id ++ "/result"))
      v (some 86400) "agent_results" }
  if ag.enable_learning then
    { w2 with
      mem := w2.mem.store w2.now
        ("aqe/" ++ ag.agent_id ++ "/" ++ ("learning/trajectories/" ++ t.task_id))
        (.vdict [("task_type", .vstr t.task_type), ("context", .vdict t.context),
                 ("result", v), ("success", .vbool true)])
        (some 2592000) "learning" }
  else w2

/-- With the spec's (total) store backend the post-execution hook always
returns normally. -/
theorem post_hook_good (ag : Agent) (t : QETask) (v : Val) (w : World) :
    ag.post_execution_hook goodMemOps t v w = (.ok (), postWorldGood ag t v w) := by
  cases hl : ag.enable_learning <;>
    simp [Agent.post_execution_hook, Agent.learn_from_execution, store_result_good,
      postWorldGood, hl]

/-- With the spec's (total) store backend the error handler always returns
normally, incrementing `tasks_failed` and persisting the error record. -/
theorem error_handler_good (ag : Agent) (t : QETask) (e : PyErr) (w : World) :
    ag.error_handler goodMemOps t e w =
      (.ok (),
       { w.setMetrics ag.agent_id
           { w.getMetrics ag.agent_id with
             tasks_failed := (w.getMetrics ag.agent_id).tasks_failed + 1 } with
         mem := w.mem.store w.now
           ("aqe/" ++ ag.agent_id ++ "/" ++ ("tasks/" ++ t.task_id ++ "/error"))
           (.vdict [("error", .vstr e.msg), ("task_type", .vstr t.task_type),
                    ("context", .vdict t.context)])
           (some 604800) "agent_results" }) := rfl

/-- The complete failure path of `execute_agent` on a freshly created task
whose agent raises: error handled, task failed, same exception returned. -/
theorem executeAgent_error_path (reg : List (String × Agent)) (aid : String)
    (ag : Agent) (tid tt : String) (ctx : List (String × Val)) (w : World) (e : PyErr)
    (hreg : lookupAgent reg aid = some ag)
    (hex : ag.executeFn (runningTask tid tt ctx aid) = .error e) :
    executeAgent goodMemOps reg aid (QETask.create tid tt ctx) w =
      (.error e,
       { runningTask tid tt ctx aid with status := TaskStatus.failed, error := some e.msg },
       { w.setMetrics ag.agent_id
           { w.getMetrics ag.agent_id with
             tasks_failed := (w.getMetrics ag.agent_id).tasks_failed + 1 } with
         mem := w.mem.store w.now
           ("aqe/" ++ ag.agent_id ++ "/" ++ ("tasks/" ++ tid ++ "/error"))
           (.vdict [("error", .vstr e.msg), ("task_type", .vstr tt),
                    ("context", .vdict ctx)])
           (some 604800) "agent_results" }) := by
  simp [executeAgent, hreg, executeAgentTry, mark_in_progress_create,
    Agent.pre_execution_hook, hex, error_handler_good, QETask.mark_failed,
    runningTask_status, runningTask_task_id, runningTask_task_type, runningTask_context]

/-- The complete success path of `execute_agent` on a freshly created task
whose agent returns a value. -/
theorem executeAgent_ok_path (reg : List (String × Agent)) (aid : String)
    (ag : Agent) (tid tt : String) (ctx : List (String × Val)) (w : World) (v : Val)
    (hreg : lookupAgent reg aid = some ag)
    (hex : ag.executeFn (runningTask tid tt ctx aid) = .ok v) :
    executeAgent goodMemOps reg aid (QETask.create tid tt ctx) w =
      (.ok v,
       { runningTask tid tt ctx aid with status := TaskStatus.completed, result := some v },
       postWorldGood ag (runningTask tid tt ctx aid) v w) := by
  simp [executeAgent, hreg, executeAgentTry, mark_in_progress_create,
    Agent.pre_execution_hook, hex, post_hook_good, QETask.mark_completed,
    runningTask_status]

/-- C1: on a freshly created task, a single dispatch (`execute_agent`) that
returns normally leaves the task `COMPLETED` with `error` unset, and one that
raises leaves it `FAILED` with `result` unset; `result` and `error` are never
both set, the outcome state is always terminal, and once the task has left
the running state exactly one of the two is set. -/
theorem C1_single_dispatch_outcomes (reg : List (String × Agent)) (aid : String)
    (ag : Agent) (tid tt : String) (ctx : List (String × Val)) (w : World)
    (r : Except PyErr Val) (t' : QETask) (w' : World)
    (hreg : lookupAgent reg aid = some ag)
    (hout : executeAgent goodMemOps reg aid (QETask.create tid tt ctx) w = (r, t', w')) :
    (∀ v, r = .ok v →
      t'.status = TaskStatus.completed ∧ t'.result = some v ∧ t'.error = none) ∧
    (∀ e, r = .error e →
      t'.status = TaskStatus.failed ∧ t'.error = some e.msg ∧ t'.result = none) ∧
    ¬(t'.result.isSome ∧ t'.error.isSome) ∧
    (t'.status = TaskStatus.completed ∨ t'.status = TaskStatus.failed) ∧
    (t'.result.isSome ∨ t'.error.isSome) := by
  cases hex : ag.executeFn (runningTask tid tt ctx aid) with
  | ok v =>
    rw [executeAgent_ok_path reg aid ag tid tt ctx w v hreg hex] at hout
    injection hout with h1 h23
    injection h23 with h2 h3
    subst h1; subst h2
    refine ⟨?_, ?_, ?_, ?_, ?_⟩
    · intro v' hv; injection hv with hv'; subst hv'
      exact ⟨rfl, rfl, rfl⟩
    · intro e he; simp at he
    · simp [runningTask]
    · simp [runningTask]
    · simp [runningTask]
  | error e =>
    rw [executeAgent_error_path reg aid ag tid tt ctx w e hreg hex] at hout
    injection hout with h1 h23
    injection h23 with h2 h3
    subst h1; subst h2
    refine ⟨?_, ?_, ?_, ?_, ?_⟩
    · intro v hv; simp at hv
    · intro e' he; injection he with he'; subst he'
      exact ⟨rfl, rfl, rfl⟩
    · simp [runningTask]
    · simp [runningTask]
    · simp [runningTask]

/-- A registered agent whose `execute` always succeeds (used as a concrete
instance for witnesses). -/
def demoAgent : Agent :=
  { agent_id := "demo-agent", enable_learning := false,
    executeFn := fun _ => .ok (.vstr "done"),
    operateFn := fun i => .ok [i],
    communicateFn := fun _ _ => .ok (.vstr "ok") }

/-- An empty starting world at time 100. -/
def demoWorld : World :=
  { mem := { entries := [] }, agentMetrics := [],
    orch := { workflows_executed := 0, total_agents_used := 0, total_cost := 0 },
    now := 100, nextId := 0 }

/-- Witness for C1: a concrete registered agent and fresh task; the dispatch
ends in a terminal state. -/
theorem C1_witness :
    lookupAgent [("demo-agent", demoAgent)] "demo-agent" = some demoAgent ∧
    ((executeAgent goodMemOps [("demo-agent", demoAgent)] "demo-agent"
        (QETask.create "t1" "demo" []) demoWorld).2.1.status = TaskStatus.completed ∨
     (executeAgent goodMemOps [("demo-agent", demoAgent)] "demo-agent"
        (QETask.create "t1" "demo" []) demoWorld).2.1.status = TaskStatus.failed) :=
  ⟨rfl, (C1_single_dispatch_outcomes [("demo-agent", demoAgent)] "demo-agent" demoAgent
      "t1" "demo" [] demoWorld _ _ _ rfl rfl).2.2.2.1⟩

/-- C2: when the agent's `execute` raises during single dispatch, the
orchestrator runs `error_handler` (incrementing `tasks_failed` and persisting
the error record for this task and exception), marks the task failed with the
error message, and re-raises the very same exception — the failure is not
swallowed. -/
theorem C2_failure_recorded_then_reraised (reg : List (String × Agent)) (aid : String)
    (ag : Agent) (tid tt : String) (ctx : List (String × Val)) (w : World) (e : PyErr)
    (r : Except PyErr Val) (t' : QETask) (w' : World)
    (hreg : lookupAgent reg aid = some ag)
    (hex : ag.executeFn (runningTask tid tt ctx aid) = .error e)
    (hout : executeAgent goodMemOps reg aid (QETask.create tid tt ctx) w = (r, t', w')) :
    r = .error e ∧
    t'.status = TaskStatus.failed ∧ t'.error = some e.msg ∧
    (w'.getMetrics ag.agent_id).tasks_failed = (w.getMetrics ag.agent_id).tasks_failed + 1 ∧
    w'.mem.retrieve w'.now ("aqe/" ++ ag.agent_id ++ "/" ++ ("tasks/" ++ tid ++ "/error"))
      = some (.vdict [("error", .vstr e.msg), ("task_type", .vstr tt),
                      ("context", .vdict ctx)]) := by
  rw [executeAgent_error_path reg aid ag tid tt ctx w e hreg hex] at hout
  injection hout with h1 h23
  injection h23 with h2 h3
  subst h1; subst h2; subst h3
  refine ⟨rfl, by simp [runningTask], by simp [runningTask], ?_, ?_⟩
  · simp [World.getMetrics, World.setMetrics]
  · simp only [QEMemory.retrieve, QEMemory.store, World.setMetrics]
    simp [MemEntry.alive]

/-- A registered agent whose `execute` always raises `Intentional failure`
(as the `FailingAgent` of the repository tests does). -/
def failAgent : Agent :=
  { agent_id := "bad-agent", enable_learning := false,
    executeFn := fun _ => .error (.genericError "Intentional failure"),
    operateFn := fun _ => .error (.genericError "Intentional failure"),
    communicateFn := fun _ _ => .error (.genericError "Intentional failure") }

/-- Witness for C2: the concrete always-failing agent; the dispatch re-raises
its exception. -/
theorem C2_witness :
    lookupAgent [("bad-agent", failAgent)] "bad-agent" = some failAgent ∧
    failAgent.executeFn (runningTask "t1" "demo" [] "bad-agent")
      = .error (.genericError "Intentional failure") ∧
    (executeAgent goodMemOps [("bad-agent", failAgent)] "bad-agent"
        (QETask.create "t1" "demo" []) demoWorld).1
      = .error (.genericError "Intentional failure") :=
  ⟨rfl, rfl, (C2_failure_recorded_then_reraised [("bad-agent", failAgent)] "bad-agent"
      failAgent "t1" "demo" [] demoWorld (.genericError "Intentional failure")
      _ _ _ rfl rfl rfl).1⟩

/-- A registered base agent whose `execute` succeeds; used with the failing
store backend, reproducing the repository test `test_agent_memory_error`
(`mocker.patch.object(qe_memory, "store", side_effect=Exception("Memory full"))`). -/
def memAgent : Agent :=
  { agent_id := "memory-agent", enable_learning := false,
    executeFn := fun _ => .ok (.vdict [("status", .vstr "success")]),
    operateFn := fun i => .ok [i],
    communicateFn := fun _ _ => .ok (.vstr "ok") }

/-- C6 (code bug): the spec and the repository's own test
`test_agent_memory_error` require a failure of the post-execution hook not to
fail the task ("Execution should succeed even if memory storage fails"), but
in `execute_agent` the hook runs inside the `try` block with no local
handler: when `memory.store` raises, the hook's exception is caught by the
`except` clause, `error_handler` raises again on its own store, and the
dispatch re-raises `Memory full` with the task stranded `IN_PROGRESS` —
while both `tasks_completed` and `tasks_failed` have been incremented. -/
theorem C6_hook_failure_fails_task :
    (executeAgent failingMemOps [("memory-agent", memAgent)] "memory-agent"
        (QETask.create "t1" "test" []) demoWorld).1
      = .error (.genericError "Memory full") ∧
    (executeAgent failingMemOps [("memory-agent", memAgent)] "memory-agent"
        (QETask.create "t1" "test" []) demoWorld).2.1.status
      = TaskStatus.in_progress ∧
    ((executeAgent failingMemOps [("memory-agent", memAgent)] "memory-agent"
        (QETask.create "t1" "test" []) demoWorld).2.2.getMetrics "memory-agent").tasks_completed
      = 1 ∧
    ((executeAgent failingMemOps [("memory-agent", memAgent)] "memory-agent"
        (QETask.create "t1" "test" []) demoWorld).2.2.getMetrics "memory-agent").tasks_failed
      = 1 :=
  ⟨rfl, rfl, rfl, rfl⟩

/-- The successful part of the post-execution hook contract (the parts of C6
that the code does satisfy, over the spec's total store backend): exactly one
`tasks_completed` increment and the result persisted under
`aqe/{agent_id}/tasks/{task_id}/result` with a 24-hour TTL. -/
theorem post_hook_increment_and_persist (ag : Agent) (t : QETask) (v : Val) (w : World)
    (hl : ag.enable_learning = false) :
    ((postWorldGood ag t v w).getMetrics ag.agent_id).tasks_completed
      = (w.getMetrics ag.agent_id).tasks_completed + 1 ∧
    (postWorldGood ag t v w).mem.aliveKey (w.now + 86399)
      ("aqe/" ++ ag.agent_id ++ "/" ++ ("tasks/" ++ t.task_id ++ "/result")) = true := by
  constructor
  · simp [postWorldGood, hl, World.getMetrics, World.setMetrics]
  · simp only [postWorldGood, hl, if_false, Bool.false_eq_true]
    simp [QEMemory.aliveKey, QEMemory.store, World.setMetrics, MemEntry.alive]

theorem setMetrics_orch (w : World) (a : String) (m : AgentMetrics) :
    (w.setMetrics a m).orch = w.orch := rfl

theorem store_result_orch (ops : MemOps) (ag : Agent) (k : String) (v : Val)
    (ttl : Option Nat) (p : String) (w : World) :
    (ag.store_result ops k v ttl p w).2.orch = w.orch := by
  unfold Agent.store_result
  cases ops.doStore w.mem w.now ("aqe/" ++ ag.agent_id ++ "/" ++ k) v ttl p <;> rfl

theorem post_hook_orch (ops : MemOps) (ag : Agent) (t : QETask) (v : Val) (w : World) :
    (ag.post_execution_hook ops t v w).2.orch = w.orch := by
  simp only [Agent.post_execution_hook]
  split
  · next e w2 heq =>
      have h := store_result_orch ops ag ("tasks/" ++ t.task_id ++ "/result") v
        (some 86400) "agent_results" (w.setMetrics ag.agent_id
          { w.getMetrics ag.agent_id with
            tasks_completed := (w.getMetrics ag.agent_id).tasks_completed + 1 })
      rw [heq] at h
      simpa [setMetrics_orch] using h
  · next u w2 heq =>
      have h := store_result_orch ops ag ("tasks/" ++ t.task_id ++ "/result") v
        (some 86400) "agent_results" (w.setMetrics ag.agent_id
          { w.getMetrics ag.agent_id with
            tasks_completed := (w.getMetrics ag.agent_id).tasks_completed + 1 })
      rw [heq] at h
      simp only [setMetrics_orch] at h
      split
      · have h2 := store_result_orch ops ag ("learning/trajectories/" ++ t.task_id)
          (.vdict [("task_type", .vstr t.task_type), ("context", .vdict t.context),
                   ("result", v), ("success", .vbool true)])
          (some 2592000) "learning" w2
        simpa [Agent.learn_from_execution, h] using h2
      · simpa using h

theorem error_handler_orch (ops : MemOps) (ag : Agent) (t : QETask) (e : PyErr) (w : World) :
    (ag.error_handler ops t e w).2.orch = w.orch := by
  simp only [Agent.error_handler]
  have h := store_result_orch ops ag ("tasks/" ++ t.task_id ++ "/error")
    (.vdict [("error", .vstr e.msg), ("task_type", .vstr t.task_type),
             ("context", .vdict t.context)])
    (some 604800) "agent_results" (w.setMetrics ag.agent_id
      { w.getMetrics ag.agent_id with
        tasks_failed := (w.getMetrics ag.agent_id).tasks_failed + 1 })
  simpa [setMetrics_orch] using h

theorem executeAgentTry_orch (ops : MemOps) (ag : Agent) (aid : String)
    (t : QETask) (w : World) :
    (executeAgentTry ops ag aid t w).2.2.orch = w.orch := by
  unfold executeAgentTry
  split
  · rfl
  · next t1 _ =>
    simp only [Agent.pre_execution_hook]
    split
    · rfl
    · next v _ =>
      split
      · next e w2 heq =>
          have h := post_hook_orch ops ag t1 v w
          rw [heq] at h
          simpa using h
      · next u w2 heq =>
          have h := post_hook_orch ops ag t1 v w
          rw [heq] at h
          split <;> simpa using h

theorem executeAgent_orch (ops : MemOps) (reg : List (String × Agent)) (aid : String)
    (t : QETask) (w : World) :
    (executeAgent ops reg aid t w).2.2.orch = w.orch := by
  unfold executeAgent
  split
  · rfl
  · next ag _ =>
    split
    · next r t1 w1 heq =>
        have h := executeAgentTry_orch ops ag aid t w
        rw [heq] at h
        simpa using h
    · next e t1 w1 heq =>
        have h := executeAgentTry_orch ops ag aid t w
        rw [heq] at h
        simp only at h
        split
        · next e2 w2 heq2 =>
            have h2 := error_handler_orch ops ag t1 e w1
            rw [heq2] at h2
            simpa [h] using h2
        · next u w2 heq2 =>
            have h2 := error_handler_orch ops ag t1 e w1
            rw [heq2] at h2
            simp only at h2
            split <;> simp [h, h2]

/-- Modelled from the spec: `lionagi.ln.alcall` — the Bounded Parallel
Executor of §4.4 — is lionagi library code, not part of the repository.  Per
§4.4 the output list preserves the input order (result at index `i`
corresponds to input at index `i`), an item whose attempts fail yields a
failure marker (`none`, as the repository tests mock it) at its index, and a
per-item failure never aborts sibling items or the batch.  Concurrency,
per-attempt timeouts, retry counts and throttling have no observable
counterpart in this sequential embedding; only the guaranteed reported order
and the per-item failure isolation are represented. -/
def alcall {α : Type} (f : α → World → Except PyErr Val × World) :
    List α → World → List (Option Val) × World
  | [], w => ([], w)
  | x :: xs, w =>
    match f x w with
    | (.ok v, w1) =>
      let rest := alcall f xs w1
      (some v :: rest.1, rest.2)
    | (.error _, w1) =>
      let rest := alcall f xs w1
      (none :: rest.1, rest.2)

/-- `task_context.get("task_type", "execute")` from the inner `run_agent` of
`execute_parallel` (`orchestrator.py` line 203). -/
def getTaskType (ctx : List (String × Val)) : String :=
  match ctx.find? (fun kv => kv.1 == "task_type") with
  | some (_, .vstr s) => s
  | _ => "execute"

/-- The unique task id generated at creation (§3); the world's counter models
the id generator. -/
def freshTaskId (w : World) : String :=
  "task-" ++ toString w.nextId

/-- The inner `run_agent` closure of `QEOrchestrator.execute_parallel`
(`orchestrator.py` lines 197–207): look the agent up (raising `ValueError`
when absent), build a fresh `QETask` from the context, dispatch through
`execute_agent`. -/
def run_agent (ops : MemOps) (reg : List (String × Agent)) (aid : String)
    (ctx : List (String × Val)) (w : World) : Except PyErr Val × World :=
  match lookupAgent reg aid with
  | none => (.error (.valueError ("Agent not found: " ++ aid)), w)
  | some _ =>
    let t := QETask.create (freshTaskId w) (getTaskType ctx) ctx
    let w1 := { w with nextId := w.nextId + 1 }
    let out := executeAgent ops reg aid t w1
    (out.1, out.2.2)

/-- `QEOrchestrator.execute_parallel` (`orchestrator.py` lines 169–218):
pair agent ids with task contexts by position (`zip`), run the pairs through
`alcall`, then increment `total_agents_used` by `len(agent_ids)`. -/
def executeParallel (ops : MemOps) (reg : List (String × Agent))
    (agent_ids : List String) (tasks : List (List (String × Val))) (w : World) :
    List (Option Val) × World :=
  let pairs := agent_ids.zip tasks
  let out := alcall (fun p => run_agent ops reg p.1 p.2) pairs w
  (out.1,
   { out.2 with orch := { out.2.orch with
       total_agents_used := out.2.orch.total_agents_used + agent_ids.length } })

theorem alcall_length {α : Type} (f : α → World → Except PyErr Val × World)
    (xs : List α) (w : World) : (alcall f xs w).1.length = xs.length := by
  induction xs generalizing w with
  | nil => rfl
  | cons x xs ih =>
    unfold alcall
    rcases h : f x w with ⟨r, w1⟩
    cases r <;> simp [h, ih]

theorem alcall_orch {α : Type} (f : α → World → Except PyErr Val × World)
    (horch : ∀ x w, ((f x w).2).orch = w.orch)
    (xs : List α) (w : World) : (alcall f xs w).2.orch = w.orch := by
  induction xs generalizing w with
  | nil => rfl
  | cons x xs ih =>
    unfold alcall
    rcases h : f x w with ⟨r, w1⟩
    have hw1 : w1.orch = w.orch := by
      have := horch x w
      rw [h] at this
      exact this
    cases r <;> simp [h, ih, hw1]

/-- An item whose run fails in every world yields the failure marker at its
own index. -/
theorem alcall_get_error {α : Type} (f : α → World → Except PyErr Val × World)
    (xs : List α) (w : World) (i : Nat) (x : α)
    (hx : xs[i]? = some x)
    (hfail : ∀ w', ∃ e w2, f x w' = (.error e, w2)) :
    (alcall f xs w).1[i]? = some none := by
  induction xs generalizing w i with
  | nil => simp at hx
  | cons y ys ih =>
    cases i with
    | zero =>
      simp at hx
      subst hx
      obtain ⟨e, w2, hf⟩ := hfail w
      unfold alcall
      simp [hf]
    | succ j =>
      simp at hx
      unfold alcall
      rcases h : f y w with ⟨r, w1⟩
      cases r <;> simpa [h] using ih w1 j hx

/-- An item whose run succeeds in every world yields a success value at its
own index. -/
theorem alcall_get_ok {α : Type} (f : α → World → Except PyErr Val × World)
    (xs : List α) (w : World) (i : Nat) (x : α)
    (hx : xs[i]? = some x)
    (hok : ∀ w', ∃ v w2, f x w' = (.ok v, w2)) :
    ∃ v, (alcall f xs w).1[i]? = some (some v) := by
  induction xs generalizing w i with
  | nil => simp at hx
  | cons y ys ih =>
    cases i with
    | zero =>
      simp at hx
      subst hx
      obtain ⟨v, w2, hf⟩ := hok w
      refine ⟨v, ?_⟩
      unfold alcall
      simp [hf]
    | succ j =>
      simp at hx
      unfold alcall
      rcases h : f y w with ⟨r, w1⟩
      cases r <;> simpa [h] using ih w1 j hx

theorem run_agent_orch (ops : MemOps) (reg : List (String × Agent)) (aid : String)
    (ctx : List (String × Val)) (w : World) :
    (run_agent ops reg aid ctx w).2.orch = w.orch := by
  unfold run_agent
  split
  · rfl
  · simpa using executeAgent_orch ops reg aid
      (QETask.create (freshTaskId w) (getTaskType ctx) ctx) { w with nextId := w.nextId + 1 }

/-- A missing agent id makes `run_agent` raise `ValueError` without touching
the world. -/
theorem run_agent_missing (ops : MemOps) (reg : List (String × Agent)) (aid : String)
    (ctx : List (String × Val)) (w : World) (h : lookupAgent reg aid = none) :
    run_agent ops reg aid ctx w = (.error (.valueError ("Agent not found: " ++ aid)), w) := by
  simp [run_agent, h]

/-- A registered agent whose `execute` is total makes `run_agent` succeed in
every world (over the spec's total store backend). -/
theorem run_agent_ok (reg : List (String × Agent)) (aid : String) (ag : Agent)
    (ctx : List (String × Val))
    (hreg : lookupAgent reg aid = some ag)
    (hexec : ∀ t, ∃ v, ag.executeFn t = .ok v) (w : World) :
    ∃ v w2, run_agent goodMemOps reg aid ctx w = (.ok v, w2) := by
  obtain ⟨v, hv⟩ := hexec (runningTask (freshTaskId w) (getTaskType ctx) ctx aid)
  have hrw := executeAgent_ok_path reg aid ag (freshTaskId w) (getTaskType ctx) ctx
    { w with nextId := w.nextId + 1 } v hreg hv
  exact ⟨v,
    postWorldGood ag (runningTask (freshTaskId w) (getTaskType ctx) ctx aid) v
      { w with nextId := w.nextId + 1 },
    by simp [run_agent, hreg, hrw]⟩

/-- A registered agent whose `execute` always raises makes `run_agent` fail
in every world (the exception re-raised by `execute_agent` propagates out of
the item's run). -/
theorem run_agent_fail (reg : List (String × Agent)) (aid : String) (ag : Agent)
    (ctx : List (String × Val))
    (hreg : lookupAgent reg aid = some ag)
    (hexec : ∀ t, ∃ e, ag.executeFn t = .error e) (w : World) :
    ∃ e w2, run_agent goodMemOps reg aid ctx w = (.error e, w2) := by
  obtain ⟨e, he⟩ := hexec (runningTask (freshTaskId w) (getTaskType ctx) ctx aid)
  have hrw := executeAgent_error_path reg aid ag (freshTaskId w) (getTaskType ctx) ctx
    { w with nextId := w.nextId + 1 } e hreg he
  refine ⟨e, (run_agent goodMemOps reg aid ctx w).2, ?_⟩
  have h1 : (run_agent goodMemOps reg aid ctx w).1 = .error e := by
    simp [run_agent, hreg, hrw]
  exact Prod.ext_iff.mpr ⟨h1, rfl⟩

theorem zip_index_some {α β : Type} (xs : List α) (ys : List β) (i : Nat) (a : α) (b : β)
    (ha : xs[i]? = some a) (hb : ys[i]? = some b) : (xs.zip ys)[i]? = some (a, b) := by
  induction xs generalizing ys i with
  | nil => simp at ha
  | cons x xs ih =>
    cases ys with
    | nil => simp at hb
    | cons y ys =>
      cases i with
      | zero =>
        simp at ha hb
        simp [ha, hb]
      | succ j =>
        simp at ha hb
        simpa using ih ys j ha hb

/-- C3: with equally long id and context lists, `execute_parallel` returns
one result per input pair in input order; each failing item — an agent id
absent from the registry, or a registered agent whose `execute` always
raises — yields the failure marker `none` at its own index without aborting
the batch, a registered agent with a total `execute` yields a success value
at its index, and `total_agents_used` grows by exactly the batch size. -/
theorem C3_parallel_per_item_isolation (reg : List (String × Agent))
    (agent_ids : List String) (tasks : List (List (String × Val))) (w : World)
    (hlen : tasks.length = agent_ids.length) :
    (executeParallel goodMemOps reg agent_ids tasks w).1.length = agent_ids.length ∧
    (executeParallel goodMemOps reg agent_ids tasks w).2.orch.total_agents_used
      = w.orch.total_agents_used + agent_ids.length ∧
    (∀ (i : Nat) (aid : String), agent_ids[i]? = some aid → lookupAgent reg aid = none →
      (executeParallel goodMemOps reg agent_ids tasks w).1[i]? = some none) ∧
    (∀ (i : Nat) (aid : String) (ag : Agent), agent_ids[i]? = some aid → lookupAgent reg aid = some ag →
      (∀ t, ∃ v, ag.executeFn t = .ok v) →
      ∃ v : Val, (executeParallel goodMemOps reg agent_ids tasks w).1[i]? = some (some v)) ∧
    (∀ (i : Nat) (aid : String) (ag : Agent), agent_ids[i]? = some aid → lookupAgent reg aid = some ag →
      (∀ t, ∃ e, ag.executeFn t = .error e) →
      (executeParallel goodMemOps reg agent_ids tasks w).1[i]? = some none) := by
  refine ⟨?_, ?_, ?_, ?_, ?_⟩
  · simp [executeParallel, alcall_length, hlen]
  · have horch := alcall_orch (fun p => run_agent goodMemOps reg p.1 p.2)
      (fun p w' => run_agent_orch goodMemOps reg p.1 p.2 w') (agent_ids.zip tasks) w
    simp [executeParallel, horch]
  · intro i aid ha hmiss
    have hi : i < agent_ids.length := by
      have := List.getElem?_eq_some.mp ha
      exact this.1
    have hb : tasks[i]? = some (tasks.get ⟨i, by rw [hlen]; exact hi⟩) := by
      rw [List.getElem?_eq_some]
      exact ⟨by rw [hlen]; exact hi, rfl⟩
    have hz := zip_index_some agent_ids tasks i aid _ ha hb
    simp only [executeParallel]
    exact alcall_get_error _ (agent_ids.zip tasks) w i _ hz
      (fun w' => ⟨_, w', run_agent_missing goodMemOps reg aid _ w' hmiss⟩)
  · intro i aid ag ha hsome hexec
    have hi : i < agent_ids.length := by
      have := List.getElem?_eq_some.mp ha
      exact this.1
    have hb : tasks[i]? = some (tasks.get ⟨i, by rw [hlen]; exact hi⟩) := by
      rw [List.getElem?_eq_some]
      exact ⟨by rw [hlen]; exact hi, rfl⟩
    have hz := zip_index_some agent_ids tasks i aid _ ha hb
    simp only [executeParallel]
    exact alcall_get_ok _ (agent_ids.zip tasks) w i _ hz
      (fun w' => run_agent_ok reg aid ag _ hsome hexec w')
  · intro i aid ag ha hsome hexec
    have hi : i < agent_ids.length := by
      have := List.getElem?_eq_some.mp ha
      exact this.1
    have hb : tasks[i]? = some (tasks.get ⟨i, by rw [hlen]; exact hi⟩) := by
      rw [List.getElem?_eq_some]
      exact ⟨by rw [hlen]; exact hi, rfl⟩
    have hz := zip_index_some agent_ids tasks i aid _ ha hb
    simp only [executeParallel]
    exact alcall_get_error _ (agent_ids.zip tasks) w i _ hz
      (fun w' => run_agent_fail reg aid ag _ hsome hexec w')

/-- An always-succeeding agent registered under the given name. -/
def agentNamed (n : String) : Agent :=
  { agent_id := n, enable_learning := false,
    executeFn := fun _ => .ok (.vstr "ok"),
    operateFn := fun i => .ok [i],
    communicateFn := fun _ _ => .ok (.vstr "ok") }

/-- An agent, registered under the given name, whose `execute` always raises
`Intentional failure` (the spec example's agent `b`). -/
def failingNamed (n : String) : Agent :=
  { agent_id := n, enable_learning := false,
    executeFn := fun _ => .error (.genericError "Intentional failure"),
    operateFn := fun _ => .error (.genericError "Intentional failure"),
    communicateFn := fun _ _ => .error (.genericError "Intentional failure") }

/-- Witness for C3: the spec's `["a","b","c"]` example, with all three agents
registered and agent `b` always failing: three results, `results[1]` is the
failure marker, `results[0]` and `results[2]` succeed, and
`total_agents_used` grows by exactly 3. -/
theorem C3_witness :
    ([[("k", Val.vstr "v1")], [], [("task_type", Val.vstr "scan")]].length
      = ["a", "b", "c"].length) ∧
    lookupAgent [("a", agentNamed "a"), ("b", failingNamed "b"), ("c", agentNamed "c")] "b"
      = some (failingNamed "b") ∧
    (executeParallel goodMemOps
        [("a", agentNamed "a"), ("b", failingNamed "b"), ("c", agentNamed "c")]
        ["a", "b", "c"] [[("k", Val.vstr "v1")], [], [("task_type", Val.vstr "scan")]]
        demoWorld).1.length = 3 ∧
    (executeParallel goodMemOps
        [("a", agentNamed "a"), ("b", failingNamed "b"), ("c", agentNamed "c")]
        ["a", "b", "c"] [[("k", Val.vstr "v1")], [], [("task_type", Val.vstr "scan")]]
        demoWorld).2.orch.total_agents_used = demoWorld.orch.total_agents_used + 3 ∧
    (executeParallel goodMemOps
        [("a", agentNamed "a"), ("b", failingNamed "b"), ("c", agentNamed "c")]
        ["a", "b", "c"] [[("k", Val.vstr "v1")], [], [("task_type", Val.vstr "scan")]]
        demoWorld).1[1]? = some none ∧
    (∃ v : Val, (executeParallel goodMemOps
        [("a", agentNamed "a"), ("b", failingNamed "b"), ("c", agentNamed "c")]
        ["a", "b", "c"] [[("k", Val.vstr "v1")], [], [("task_type", Val.vstr "scan")]]
        demoWorld).1[0]? = some (some v)) ∧
    (∃ v : Val, (executeParallel goodMemOps
        [("a", agentNamed "a"), ("b", failingNamed "b"), ("c", agentNamed "c")]
        ["a", "b", "c"] [[("k", Val.vstr "v1")], [], [("task_type", Val.vstr "scan")]]
        demoWorld).1[2]? = some (some v)) := by
  have h := C3_parallel_per_item_isolation
    [("a", agentNamed "a"), ("b", failingNamed "b"), ("c", agentNamed "c")]
    ["a", "b", "c"] [[("k", Val.vstr "v1")], [], [("task_type", Val.vstr "scan")]]
    demoWorld rfl
  exact ⟨rfl, rfl, h.1, h.2.1,
    h.2.2.2.2 1 "b" (failingNamed "b") rfl rfl
      (fun t => ⟨.genericError "Intentional failure", rfl⟩),
    h.2.2.2.1 0 "a" (agentNamed "a") rfl rfl (fun t => ⟨Val.vstr "ok", rfl⟩),
    h.2.2.2.1 2 "c" (agentNamed "c") rfl rfl (fun t => ⟨Val.vstr "ok", rfl⟩)⟩

/-- The result dictionary of `execute_fan_out_fan_in`
(`orchestrator.py` lines 282–286). -/
structure FanResult where
  decomposition : List (List (String × Val))
  worker_results : List (Option Val)
  synthesis : Val

/-- The decomposition instruction built in `execute_fan_out_fan_in`
(`orchestrator.py` lines 253–263): the coordinator is asked — via the
guidance string — to create one subtask per worker. -/
def fanInstruct (ctx : List (String × Val)) (n : Nat) : Instruct :=
  { instruction := "Decompose this QE task into parallel subtasks",
    context := ctx,
    guidance := "Create " ++ toString n ++ " subtasks, one for each worker agent" }

/-- Subtask descriptors as passed to the synthesis context. -/
def encodeSubtasks (sts : List Instruct) : Val :=
  .vlist (sts.map (fun st => .vdict st.to_dict))

/-- Worker results as passed to the synthesis context (`None` markers for
failed workers). -/
def encodeResults (rs : List (Option Val)) : Val :=
  .vlist (rs.map (fun r => match r with | some v => v | none => .vnone))

/-- `QEOrchestrator.execute_fan_out_fan_in` (`orchestrator.py` lines
220–286): (1) coordinator lookup and decomposition via `operate`; (2)
fan-out of the subtask dictionaries through `execute_parallel`; (3) fan-in
synthesis via the coordinator's `communicate`. -/
def executeFanOutFanIn (ops : MemOps) (reg : List (String × Agent))
    (coordinator_agent : String) (worker_agents : List String)
    (ctx : List (String × Val)) (w : World) : Except PyErr FanResult × World :=
  match lookupAgent reg coordinator_agent with
  | none => (.error (.valueError ("Coordinator not found: " ++ coordinator_agent)), w)
  | some coord =>
    match coord.operateFn (fanInstruct ctx worker_agents.length) with
    | .error e => (.error e, w)
    | .ok subtasks =>
      let out := executeParallel ops reg worker_agents (subtasks.map Instruct.to_dict) w
      match coord.communicateFn "Synthesize QE results into final report"
          [("subtasks", encodeSubtasks subtasks),
           ("worker_results", encodeResults out.1)] with
      | .error e => (.error e, out.2)
      | .ok synthesis =>
        (.ok { decomposition := subtasks.map Instruct.to_dict,
               worker_results := out.1, synthesis := synthesis }, out.2)

/-- C4: if the coordinator's decomposition phase raises, the whole
fan-out/fan-in call raises that exception and the world is returned exactly
as it was — in particular no worker ran: every agent's metrics block and the
`total_agents_used` counter are unchanged. -/
theorem C4_decomposition_failure_aborts (ops : MemOps) (reg : List (String × Agent))
    (cid : String) (workers : List String) (ctx : List (String × Val)) (w : World)
    (coord : Agent) (e : PyErr)
    (hc : lookupAgent reg cid = some coord)
    (hop : coord.operateFn (fanInstruct ctx workers.length) = .error e) :
    executeFanOutFanIn ops reg cid workers ctx w = (.error e, w) ∧
    (∀ aid, (executeFanOutFanIn ops reg cid workers ctx w).2.getMetrics aid
      = w.getMetrics aid) ∧
    (executeFanOutFanIn ops reg cid workers ctx w).2.orch.total_agents_used
      = w.orch.total_agents_used := by
  have h : executeFanOutFanIn ops reg cid workers ctx w = (.error e, w) := by
    simp [executeFanOutFanIn, hc, hop]
  exact ⟨h, fun aid => by rw [h], by rw [h]⟩

/-- A coordinator whose decomposition step itself always fails. -/
def failCoordinator : Agent :=
  { agent_id := "coord", enable_learning := false,
    executeFn := fun _ => .ok (.vstr "ok"),
    operateFn := fun _ => .error (.genericError "decomposition failed"),
    communicateFn := fun _ _ => .ok (.vstr "synthesized") }

/-- Witness for C4: the spec's scenario — `coord` with workers `w1`, `w2`
and a failing decomposition step: the call raises before any worker is
invoked. -/
theorem C4_witness :
    lookupAgent [("coord", failCoordinator), ("w1", agentNamed "w1"),
        ("w2", agentNamed "w2")] "coord" = some failCoordinator ∧
    failCoordinator.operateFn (fanInstruct [("request", Val.vstr "complex")]
        (["w1", "w2"].length)) = .error (.genericError "decomposition failed") ∧
    executeFanOutFanIn goodMemOps [("coord", failCoordinator), ("w1", agentNamed "w1"),
        ("w2", agentNamed "w2")] "coord" ["w1", "w2"]
        [("request", Val.vstr "complex")] demoWorld
      = (.error (.genericError "decomposition failed"), demoWorld) :=
  ⟨rfl, rfl,
   (C4_decomposition_failure_aborts goodMemOps
      [("coord", failCoordinator), ("w1", agentNamed "w1"), ("w2", agentNamed "w2")]
      "coord" ["w1", "w2"] [("request", Val.vstr "complex")] demoWorld
      failCoordinator (.genericError "decomposition failed") rfl rfl).1⟩

/-- A coordinator that returns a single subtask descriptor regardless of the
number of workers (nothing in the code validates the count). -/
def looseCoordinator : Agent :=
  { agent_id := "coord", enable_learning := false,
    executeFn := fun _ => .ok (.vstr "ok"),
    operateFn := fun _ => .ok [{ instruction := "only one subtask", context := [],
                                 guidance := "" }],
    communicateFn := fun _ _ => .ok (.vstr "synthesized") }

/-- Registry for the C8 counterexample. -/
def looseReg : List (String × Agent) :=
  [("coord", looseCoordinator), ("w1", agentNamed "w1"), ("w2", agentNamed "w2")]

/-- Counterexample to C8 as stated: with two workers, a coordinator whose
`operate` returns one subtask descriptor makes the call succeed with a
decomposition of length 1 ≠ 2 — the code never enforces that the
decomposition phase produces exactly `len(worker_ids)` subtasks, and the
`zip` pairing silently truncates to one worker result. -/
theorem C8_counterexample :
    Except.map (fun r => r.decomposition.length)
      (executeFanOutFanIn goodMemOps looseReg "coord" ["w1", "w2"] [] demoWorld).1
      = .ok 1 ∧
    Except.map (fun r => r.worker_results.length)
      (executeFanOutFanIn goodMemOps looseReg "coord" ["w1", "w2"] [] demoWorld).1
      = .ok 1 ∧
    ["w1", "w2"].length = 2 :=
  ⟨rfl, rfl, rfl⟩

/-- C8 as amended: the coordinator is *asked* — through the guidance string
naming `len(worker_ids)` — to produce exactly one subtask per worker, but the
returned count is not enforced; the subtasks actually returned are paired
with workers 1:1 by position up to the shorter of the two lists, so the
parallel phase runs `min len(worker_ids) len(subtasks)` pairs, and only when
the coordinator returns exactly `len(worker_ids)` subtasks is every worker
paired with its own subtask. -/
theorem C8_amended_pairing (ops : MemOps) (reg : List (String × Agent))
    (cid : String) (workers : List String) (ctx : List (String × Val)) (w : World)
    (coord : Agent) (subtasks : List Instruct) (res : FanResult) (w' : World)
    (hc : lookupAgent reg cid = some coord)
    (hop : coord.operateFn (fanInstruct ctx workers.length) = .ok subtasks)
    (hrun : executeFanOutFanIn ops reg cid workers ctx w = (.ok res, w')) :
    (fanInstruct ctx workers.length).guidance
      = "Create " ++ toString workers.length ++ " subtasks, one for each worker agent" ∧
    res.decomposition = subtasks.map Instruct.to_dict ∧
    res.worker_results.length = min workers.length subtasks.length ∧
    (subtasks.length = workers.length → res.worker_results.length = workers.length) := by
  simp only [executeFanOutFanIn, hc, hop] at hrun
  split at hrun
  · injection hrun with h1 h2
    cases h1
  · injection hrun with h1 h2
    injection h1 with h1'
    subst h1'
    refine ⟨rfl, rfl, ?_, ?_⟩
    · simp [executeParallel, alcall_length, List.length_zip]
    · intro hlen
      simp [executeParallel, alcall_length, List.length_zip, hlen]

/-- A coordinator that returns exactly two subtask descriptors. -/
def pairCoordinator : Agent :=
  { agent_id := "coord2", enable_learning := false,
    executeFn := fun _ => .ok (.vstr "ok"),
    operateFn := fun _ => .ok [{ instruction := "s1", context := [], guidance := "" },
                               { instruction := "s2", context := [], guidance := "" }],
    communicateFn := fun _ _ => .ok (.vstr "synthesized") }

/-- Registry for the C8 witness. -/
def pairReg : List (String × Agent) :=
  [("coord2", pairCoordinator), ("w1", agentNamed "w1"), ("w2", agentNamed "w2")]

/-- Witness for the amended C8: a coordinator returning exactly two subtasks
for two workers yields two worker results. -/
theorem C8_witness :
    lookupAgent pairReg "coord2" = some pairCoordinator ∧
    pairCoordinator.operateFn (fanInstruct [] (["w1", "w2"].length))
      = .ok [{ instruction := "s1", context := [], guidance := "" },
             { instruction := "s2", context := [], guidance := "" }] ∧
    (∃ res w', executeFanOutFanIn goodMemOps pairReg "coord2" ["w1", "w2"] [] demoWorld
        = (.ok res, w') ∧ res.worker_results.length = 2) := by
  have h := C8_amended_pairing goodMemOps pairReg "coord2" ["w1", "w2"] [] demoWorld
    pairCoordinator
    [{ instruction := "s1", context := [], guidance := "" },
     { instruction := "s2", context := [], guidance := "" }] _ _ rfl rfl rfl
  exact ⟨rfl, rfl, _, _, rfl, h.2.2.2 rfl⟩

/-- One operation node of the workflow graph built by `execute_pipeline`
(`orchestrator.py` lines 146–159): a `communicate` operation on the agent's
branch, depending on the previous node. -/
structure PipelineNode where
  operation : String
  depends_on : List Nat
  agent_id : String
  instruction : String
  context : List (String × Val)

/-- `context.get("instruction", f"Execute {agent_id}")` from
`orchestrator.py` line 156. -/
def getInstruction (ctx : List (String × Val)) (aid : String) : String :=
  match ctx.find? (fun kv => kv.1 == "instruction") with
  | some (_, .vstr s) => s
  | _ => "Execute " ++ aid

/-- The graph-building loop of `QEOrchestrator.execute_pipeline`
(`orchestrator.py` lines 146–159), with `i` the index of the first node
still to build: each agent id is looked up (`ValueError` when absent) and
its node depends exactly on the previous node. -/
def buildPipelineNodesAux (reg : List (String × Agent)) (ctx : List (String × Val)) :
    List String → Nat → Except PyErr (List PipelineNode)
  | [], _ => .ok []
  | aid :: rest, i =>
    match lookupAgent reg aid with
    | none => .error (.valueError ("Agent not found in pipeline: " ++ aid))
    | some _ =>
      match buildPipelineNodesAux reg ctx rest (i + 1) with
      | .error e => .error e
      | .ok ns => .ok
          ({ operation := "communicate",
             depends_on := if i = 0 then [] else [i - 1],
             agent_id := aid,
             instruction := getInstruction ctx aid,
             context := ctx } :: ns)

/-- The full workflow graph of a pipeline (a linear dependency chain). -/
def buildPipelineNodes (reg : List (String × Agent)) (pipeline : List String)
    (ctx : List (String × Val)) : Except PyErr (List PipelineNode) :=
  buildPipelineNodesAux reg ctx pipeline 0

/-- Modelled from the spec: `lionagi.Session.flow` is lionagi library code,
not part of the repository.  Per §4.5/§5 it executes an operation graph so
that a node runs only after the nodes it depends on reached a terminal
state, and a node failure aborts every node depending on it and surfaces
that node's error.  For the linear chains built by `execute_pipeline` this
means running the nodes strictly in list order with fail-fast abort.  The
second component is the execution trace: the agents whose stage was started,
in start order. -/
def flowLinear (reg : List (String × Agent)) :
    List PipelineNode → Except PyErr (List (String × Val)) × List String
  | [] => (.ok [], [])
  | n :: rest =>
    match lookupAgent reg n.agent_id with
    | none => (.error (.valueError ("Agent not found: " ++ n.agent_id)), [n.agent_id])
    | some ag =>
      match ag.communicateFn n.instruction n.context with
      | .error e => (.error e, [n.agent_id])
      | .ok v =>
        match flowLinear reg rest with
        | (.error e, tr) => (.error e, n.agent_id :: tr)
        | (.ok vs, tr) => (.ok ((n.agent_id, v) :: vs), n.agent_id :: tr)

/-- `QEOrchestrator.execute_pipeline` (`orchestrator.py` lines 118–167):
build the linear workflow graph (raising for an unregistered agent), run it
through the session flow, and — only when the flow returned — increment
`workflows_executed` by one and `total_agents_used` by the pipeline length. -/
def executePipeline (reg : List (String × Agent)) (pipeline : List String)
    (ctx : List (String × Val)) (w : World) :
    Except PyErr (List (String × Val)) × List String × World :=
  match buildPipelineNodes reg pipeline ctx with
  | .error e => (.error e, [], w)
  | .ok nodes =>
    match flowLinear reg nodes with
    | (.error e, tr) => (.error e, tr, w)
    | (.ok vs, tr) =>
      (.ok vs, tr,
       { w with orch :=
          { workflows_executed := w.orch.workflows_executed + 1,
            total_agents_used := w.orch.total_agents_used + pipeline.length,
            total_cost := w.orch.total_cost } })

/-- The node built for agent `aid` at position `i`. -/
def mkNode (ctx : List (String × Val)) (aid : String) (i : Nat) : PipelineNode :=
  { operation := "communicate",
    depends_on := if i = 0 then [] else [i - 1],
    agent_id := aid,
    instruction := getInstruction ctx aid,
    context := ctx }

/-- The nodes built for a pipeline suffix starting at position `i`. -/
def mkNodes (ctx : List (String × Val)) : List String → Nat → List PipelineNode
  | [], _ => []
  | aid :: rest, i => mkNode ctx aid i :: mkNodes ctx rest (i + 1)

theorem buildPipelineNodesAux_ok (reg : List (String × Agent)) (ctx : List (String × Val))
    (pipeline : List String) (i : Nat)
    (hreg : ∀ aid ∈ pipeline, (lookupAgent reg aid).isSome) :
    buildPipelineNodesAux reg ctx pipeline i = .ok (mkNodes ctx pipeline i) := by
  induction pipeline generalizing i with
  | nil => rfl
  | cons aid rest ih =>
    have h1 : (lookupAgent reg aid).isSome := hreg aid (by simp)
    obtain ⟨ag, hag⟩ := Option.isSome_iff_exists.mp h1
    have h2 := ih (i + 1) (fun a ha => hreg a (by simp [ha]))
    simp [buildPipelineNodesAux, hag, h2, mkNodes, mkNode]

/-- Fail-fast through a linear chain: stages before the failing one run in
order, the failing stage's error surfaces, later stages never start. -/
theorem flowLinear_fail (reg : List (String × Agent)) (ctx : List (String × Val))
    (front : List String) (failAid : String) (back : List String) (e : PyErr) (i : Nat)
    (hfront : ∀ aid ∈ front, ∃ ag, lookupAgent reg aid = some ag ∧
      ∃ v, ag.communicateFn (getInstruction ctx aid) ctx = .ok v)
    (hfail : ∃ ag, lookupAgent reg failAid = some ag ∧
      ag.communicateFn (getInstruction ctx failAid) ctx = .error e) :
    flowLinear reg (mkNodes ctx (front ++ failAid :: back) i) = (.error e, front ++ [failAid]) := by
  induction front generalizing i with
  | nil =>
    obtain ⟨ag, hl, hc⟩ := hfail
    simp [mkNodes, mkNode, flowLinear, hl, hc]
  | cons a front' ih =>
    obtain ⟨ag, hl, v, hc⟩ := hfront a (by simp)
    have h2 := ih (i + 1) (fun x hx => hfront x (by simp [hx]))
    simp [mkNodes, mkNode, flowLinear, hl, hc, h2]

/-- C5: pipeline stages run strictly in the given order — the set of stages
that ever start is a `take` of the pipeline — and a failure at stage `k`
(here the stage after `front`) aborts all later stages: the call surfaces
the stage-`k` error, the trace is exactly the first `k+1` stages in order,
and the orchestration metrics are not advanced. -/
theorem C5_pipeline_strict_order_fail_fast (reg : List (String × Agent))
    (ctx : List (String × Val)) (front back : List String) (failAid : String)
    (e : PyErr) (w : World)
    (hfront : ∀ aid ∈ front, ∃ ag, lookupAgent reg aid = some ag ∧
      ∃ v, ag.communicateFn (getInstruction ctx aid) ctx = .ok v)
    (hfail : ∃ ag, lookupAgent reg failAid = some ag ∧
      ag.communicateFn (getInstruction ctx failAid) ctx = .error e)
    (hback : ∀ aid ∈ back, (lookupAgent reg aid).isSome) :
    executePipeline reg (front ++ failAid :: back) ctx w
      = (.error e, front ++ [failAid], w) ∧
    front ++ [failAid] = (front ++ failAid :: back).take (front.length + 1) := by
  have hreg : ∀ aid ∈ front ++ failAid :: back, (lookupAgent reg aid).isSome := by
    intro aid ha
    rcases List.mem_append.mp ha with h | h
    · obtain ⟨ag, hl, _⟩ := hfront aid h
      simp [hl]
    · rcases List.mem_cons.mp h with h' | h'
      · obtain ⟨ag, hl, _⟩ := hfail
        subst h'
        simp [hl]
      · exact hback aid h'
  have hb := buildPipelineNodesAux_ok reg ctx (front ++ failAid :: back) 0 hreg
  have hf := flowLinear_fail reg ctx front failAid back e 0 hfront hfail
  constructor
  · simp [executePipeline, buildPipelineNodes, hb, hf]
  · rw [List.take_append]
    simp

/-- An agent whose pipeline stage (`communicate`) always fails. -/
def commFailAgent (n : String) : Agent :=
  { agent_id := n, enable_learning := false,
    executeFn := fun _ => .ok (.vstr "ok"),
    operateFn := fun i => .ok [i],
    communicateFn := fun _ _ => .error (.genericError "stage failed") }

/-- Registry for the C5 witness: stage 2 of 3 fails. -/
def pipeReg : List (String × Agent) :=
  [("ok1", agentNamed "ok1"), ("bad", commFailAgent "bad"), ("ok2", agentNamed "ok2")]

/-- Witness for C5: in the pipeline `["ok1", "bad", "ok2"]` where `bad`'s
stage fails, the call surfaces `stage failed` and only `ok1` and `bad` ever
start. -/
theorem C5_witness :
    lookupAgent pipeReg "bad" = some (commFailAgent "bad") ∧
    (commFailAgent "bad").communicateFn (getInstruction [] "bad") []
      = .error (.genericError "stage failed") ∧
    executePipeline pipeReg ["ok1", "bad", "ok2"] [] demoWorld
      = (.error (.genericError "stage failed"), ["ok1", "bad"], demoWorld) :=
  ⟨rfl, rfl,
   (C5_pipeline_strict_order_fail_fast pipeReg [] ["ok1"] ["ok2"] "bad"
      (.genericError "stage failed") demoWorld
      (fun aid ha => by
        simp at ha
        subst ha
        exact ⟨agentNamed "ok1", rfl, .vstr "ok", rfl⟩)
      ⟨commFailAgent "bad", rfl, rfl⟩
      (fun aid ha => by
        simp at ha
        subst ha
        rfl)).1⟩

/-- C7: `mark_completed`/`mark_failed` on a task that is not `IN_PROGRESS`
raise `TaskStateError` rather than silently succeeding — in particular a
second `mark_completed` in a row raises — and no transition at all is
permitted out of a terminal (`COMPLETED` or `FAILED`) state. -/
theorem C7_task_state_machine (t : QETask) (aid msg : String) (r : Val) :
    (t.status ≠ TaskStatus.in_progress →
      (∃ s, t.mark_completed r = .error (.taskStateError s)) ∧
      (∃ s, t.mark_failed msg = .error (.taskStateError s))) ∧
    (∀ t1, t.mark_completed r = .ok t1 →
      ∃ s, t1.mark_completed r = .error (.taskStateError s)) ∧
    ((t.status = TaskStatus.completed ∨ t.status = TaskStatus.failed) →
      (∃ s, t.mark_in_progress aid = .error (.taskStateError s)) ∧
      (∃ s, t.mark_completed r = .error (.taskStateError s)) ∧
      (∃ s, t.mark_failed msg = .error (.taskStateError s))) := by
  refine ⟨?_, ?_, ?_⟩
  · intro h
    exact ⟨⟨"cannot complete: task " ++ t.task_id ++ " is not in progress",
             by simp [QETask.mark_completed, h]⟩,
           ⟨"cannot fail: task " ++ t.task_id ++ " is not in progress",
             by simp [QETask.mark_failed, h]⟩⟩
  · intro t1 h
    unfold QETask.mark_completed at h
    split at h
    · injection h with h'
      subst h'
      exact ⟨"cannot complete: task " ++ t.task_id ++ " is not in progress",
             by simp [QETask.mark_completed]⟩
    · cases h
  · intro h
    have hni : t.status ≠ TaskStatus.in_progress := by
      rcases h with h | h <;> simp [h]
    have hnp : t.status ≠ TaskStatus.pending := by
      rcases h with h | h <;> simp [h]
    exact ⟨⟨"cannot mark in progress: task " ++ t.task_id ++ " is not pending",
             by simp [QETask.mark_in_progress, hnp]⟩,
           ⟨"cannot complete: task " ++ t.task_id ++ " is not in progress",
             by simp [QETask.mark_completed, hni]⟩,
           ⟨"cannot fail: task " ++ t.task_id ++ " is not in progress",
             by simp [QETask.mark_failed, hni]⟩⟩

/-- A task already in the terminal `COMPLETED` state. -/
def doneTask : QETask :=
  { task_id := "t0", task_type := "demo", context := [],
    status := TaskStatus.completed, result := some (.vstr "done"),
    error := none, agent_id := some "demo-agent" }

/-- Witness for C7: on a concrete completed task both completion and failure
transitions raise `TaskStateError`. -/
theorem C7_witness :
    doneTask.status ≠ TaskStatus.in_progress ∧
    ((∃ s, doneTask.mark_completed (.vstr "r") = .error (.taskStateError s)) ∧
     (∃ s, doneTask.mark_failed "m" = .error (.taskStateError s))) :=
  ⟨by decide, (C7_task_state_machine doneTask "a" "m" (.vstr "r")).1 (by decide)⟩

/-- The snapshot produced by `QEFleet.export_state` (`fleet.py` lines
239–249): the memory export under the `memory` key, plus routing stats and
orchestrator metrics. -/
structure FleetSnapshot where
  memory : List (String × MemEntry)
  router_stats : Val
  orchestrator_metrics : OrchMetrics

/-- `QEFleet` (`fleet.py`): the registry and world owned through the
orchestrator, the configuration flags, the `initialized` flag (here
`inited`), and the router whose stats are opaque to the core. -/
structure Fleet where
  reg : List (String × Agent)
  w : World
  enable_routing : Bool
  enable_learning : Bool
  inited : Bool
  router_stats : Val

/-- `QEFleet.initialize` (`fleet.py` lines 52–76): warn-and-return when
already done, otherwise set the flag (agents are registered separately). -/
def Fleet.initFleet (f : Fleet) : Fleet :=
  if f.inited then f else { f with inited := true }

/-- `QEFleet.execute` (`fleet.py` lines 87–104): auto-run `initialize` when
needed, then delegate to `QEOrchestrator.execute_agent`. -/
def Fleet.execute (f : Fleet) (aid : String) (t : QETask) :
    Except PyErr Val × QETask × Fleet :=
  let f1 := if f.inited then f else f.initFleet
  let out := executeAgent goodMemOps f1.reg aid t f1.w
  (out.1, out.2.1, { f1 with w := out.2.2 })

/-- `QEFleet.execute_pipeline` (`fleet.py` lines 106–138). -/
def Fleet.execute_pipeline (f : Fleet) (pipeline : List String)
    (ctx : List (String × Val)) :
    Except PyErr (List (String × Val)) × List String × Fleet :=
  let f1 := if f.inited then f else f.initFleet
  let out := executePipeline f1.reg pipeline ctx f1.w
  (out.1, out.2.1, { f1 with w := out.2.2 })

/-- `QEFleet.execute_parallel` (`fleet.py` lines 140–167). -/
def Fleet.execute_parallel (f : Fleet) (agents : List String)
    (tasks : List (List (String × Val))) : List (Option Val) × Fleet :=
  let f1 := if f.inited then f else f.initFleet
  let out := executeParallel goodMemOps f1.reg agents tasks f1.w
  (out.1, { f1 with w := out.2 })

/-- `QEFleet.execute_fan_out_fan_in` (`fleet.py` lines 169–197). -/
def Fleet.execute_fan_out_fan_in (f : Fleet) (coordinator : String)
    (workers : List String) (ctx : List (String × Val)) :
    Except PyErr FanResult × Fleet :=
  let f1 := if f.inited then f else f.initFleet
  let out := executeFanOutFanIn goodMemOps f1.reg coordinator workers ctx f1.w
  (out.1, { f1 with w := out.2 })

/-- One agent's entry of `get_fleet_status`'s `agent_statuses`
(`BaseQEAgent.get_metrics`). -/
def agentStatusVal (f : Fleet) (aid : String) : Val :=
  .vdict [("agent_id", .vstr aid),
          ("tasks_completed", .vnat (f.w.getMetrics aid).tasks_completed),
          ("tasks_failed", .vnat (f.w.getMetrics aid).tasks_failed),
          ("total_cost", .vnat (f.w.getMetrics aid).total_cost),
          ("patterns_learned", .vnat (f.w.getMetrics aid).patterns_learned)]

/-- `QEOrchestrator.get_fleet_status` (`orchestrator.py` lines 324–343). -/
def getFleetStatus (f : Fleet) : Val :=
  .vdict [("total_agents", .vnat f.reg.length),
          ("agent_statuses", .vdict (f.reg.map (fun kv => (kv.1, agentStatusVal f kv.1)))),
          ("orchestration_metrics",
            .vdict [("workflows_executed", .vnat f.w.orch.workflows_executed),
                    ("total_agents_used", .vnat f.w.orch.total_agents_used),
                    ("total_cost", .vnat f.w.orch.total_cost)]),
          ("routing_stats", f.router_stats),
          ("memory_stats", f.w.mem.get_stats f.w.now)]

/-- `QEFleet.get_status` (`fleet.py` lines 213–226): the bare
`not_initialized` marker before the flag is set, the full aggregate
afterwards. -/
def Fleet.get_status (f : Fleet) : Val :=
  if f.inited then getFleetStatus f
  else .vdict [("status", .vstr "not_initialized")]

/-- `QEFleet.export_state` (`fleet.py` lines 239–249). -/
def Fleet.export_state (f : Fleet) : FleetSnapshot :=
  { memory := f.w.mem.export_state,
    router_stats := f.router_stats,
    orchestrator_metrics := f.w.orch }

/-- `QEFleet.import_state` (`fleet.py` lines 251–258): only the `memory`
component of the snapshot is restored. -/
def Fleet.import_state (f : Fleet) (s : FleetSnapshot) : Fleet :=
  { f with w := { f.w with mem := QEMemory.import_state s.memory } }

theorem alive_mono (ent : MemEntry) (t t' : Nat) (hle : t ≤ t')
    (h : ent.alive t' = true) : ent.alive t = true := by
  unfold MemEntry.alive at h ⊢
  cases hx : ent.expires_at with
  | none => rfl
  | some x =>
    rw [hx] at h
    simp only [decide_eq_true_eq] at h ⊢
    omega

theorem mem_search_key (es : List (String × MemEntry)) (pat : String → Bool)
    (t : Nat) (kv' : String × Val)
    (h : kv' ∈ (QEMemory.mk es).search pat t) : kv'.1 ∈ es.map Prod.fst := by
  rcases List.mem_map.mp h with ⟨x, hx, hxe⟩
  have hx1 : x ∈ es := (List.mem_filter.mp hx).1
  exact List.mem_map.mpr ⟨x, hx1, by rw [← hxe]⟩

theorem aliveKey_cons_ne (k k' : String) (ent : MemEntry)
    (es : List (String × MemEntry)) (t' : Nat) (h : k' ≠ k) :
    (QEMemory.mk ((k, ent) :: es)).aliveKey t' k'
      = (QEMemory.mk es).aliveKey t' k' := by
  unfold QEMemory.aliveKey
  rw [List.find?_cons_of_neg]
  simp [Ne.symm h]

/-- Search at a later time returns exactly the earlier search result with the
meanwhile-expired keys filtered out (keys unique, as `store` maintains). -/
theorem search_filter_alive (es : List (String × MemEntry)) (pat : String → Bool)
    (t t' : Nat) (hle : t ≤ t') (hnd : (es.map Prod.fst).Nodup) :
    (QEMemory.mk es).search pat t'
      = ((QEMemory.mk es).search pat t).filter
          (fun kv => (QEMemory.mk es).aliveKey t' kv.1) := by
  induction es with
  | nil => rfl
  | cons he es ih =>
    obtain ⟨k, ent⟩ := he
    have hnd' : (es.map Prod.fst).Nodup := (List.nodup_cons.mp hnd).2
    have hknotin : k ∉ es.map Prod.fst := (List.nodup_cons.mp hnd).1
    have hih := ih hnd'
    have hcong : ((QEMemory.mk es).search pat t).filter
          (fun kv => (QEMemory.mk ((k, ent) :: es)).aliveKey t' kv.1)
        = ((QEMemory.mk es).search pat t).filter
          (fun kv => (QEMemory.mk es).aliveKey t' kv.1) := by
      apply List.filter_congr
      intro kv hkv
      have hne : kv.1 ≠ k := fun hEq => hknotin (hEq ▸ mem_search_key es pat t kv hkv)
      exact aliveKey_cons_ne k kv.1 ent es t' hne
    have hhead : (QEMemory.mk ((k, ent) :: es)).aliveKey t' k = ent.alive t' := by
      unfold QEMemory.aliveKey
      rw [List.find?_cons_of_pos]
      simp
    have hsearch_cons : ∀ τ, (QEMemory.mk ((k, ent) :: es)).search pat τ
        = if pat k && ent.alive τ then (k, ent.value) :: (QEMemory.mk es).search pat τ
          else (QEMemory.mk es).search pat τ := by
      intro τ
      unfold QEMemory.search
      cases h : pat k && ent.alive τ <;> simp [List.filter_cons, h]
    rw [hsearch_cons t', hsearch_cons t]
    cases hp : pat k
    · simp only [hp, Bool.false_and, Bool.false_eq_true, if_false]
      exact hih.trans hcong.symm
    · cases ha' : ent.alive t'
      · simp only [hp, ha', Bool.and_false, Bool.false_eq_true, if_false, Bool.true_and]
        cases ha : ent.alive t
        · simp only [Bool.false_eq_true, if_false]
          exact hih.trans hcong.symm
        · simp only [if_true]
          rw [List.filter_cons]
          simp only [hhead, ha', Bool.false_eq_true, if_false]
          exact hih.trans hcong.symm
      · have ha : ent.alive t := alive_mono ent t t' hle ha'
        simp only [hp, ha, ha', Bool.true_and, if_true]
        rw [List.filter_cons]
        simp only [hhead, ha', if_true]
        exact congrArg (List.cons (k, ent.value)) (hih.trans hcong.symm)

/-- C9: `import_state(export_state())` restores the fleet's store fully —
entries, partitions and absolute expiry times are identical — and therefore
a `search(".*")` (any key predicate) after the round trip at a later time
returns exactly the key-to-value set of the pre-export search minus the
entries that expired strictly in between. -/
theorem C9_export_import_roundtrip (f : Fleet) (pat : String → Bool) (t' : Nat)
    (hle : f.w.now ≤ t')
    (hnd : (f.w.mem.entries.map Prod.fst).Nodup) :
    (f.import_state f.export_state).w.mem = f.w.mem ∧
    (f.import_state f.export_state).w.mem.search pat t'
      = (f.w.mem.search pat f.w.now).filter
          (fun kv => f.w.mem.aliveKey t' kv.1) := by
  refine ⟨rfl, ?_⟩
  exact search_filter_alive f.w.mem.entries pat f.w.now t' hle hnd

/-- A fleet whose store has one entry expiring at time 150 and one
non-expiring entry, at time 100. -/
def snapFleet : Fleet :=
  { reg := [],
    w := { mem := { entries :=
             [("aqe/a/k1", { value := .vstr "v1", partition := "agent_results",
                             expires_at := some 150 }),
              ("aqe/a/k2", { value := .vstr "v2", partition := "patterns",
                             expires_at := none })] },
           agentMetrics := [],
           orch := { workflows_executed := 0, total_agents_used := 0, total_cost := 0 },
           now := 100, nextId := 0 },
    enable_routing := true, enable_learning := false, inited := true,
    router_stats := .vnone }

/-- Witness for C9: exporting at time 100 and importing at time 200 loses
exactly the entry that expired at 150. -/
theorem C9_witness :
    snapFleet.w.now ≤ 200 ∧
    (snapFleet.w.mem.entries.map Prod.fst).Nodup ∧
    (snapFleet.import_state snapFleet.export_state).w.mem.search (fun _ => true) 200
      = (snapFleet.w.mem.search (fun _ => true) snapFleet.w.now).filter
          (fun kv => snapFleet.w.mem.aliveKey 200 kv.1) :=
  ⟨by decide, by decide,
   (C9_export_import_roundtrip snapFleet (fun _ => true) 200 (by decide) (by decide)).2⟩

/-- C10: an uninitialized fleet's `get_status` is exactly the
`not_initialized` marker, computed without consulting the registry or the
store (replacing both changes nothing), while every execution entry point
first runs the initialization, so the returned fleet's flag is true. -/
theorem C10_status_and_auto_init (f : Fleet) (aid : String) (t : QETask)
    (pipeline : List String) (ctx : List (String × Val)) (ids : List String)
    (tasks : List (List (String × Val))) (cid : String) (workers : List String)
    (hni : f.inited = false) :
    f.get_status = .vdict [("status", .vstr "not_initialized")] ∧
    (∀ (reg' : List (String × Agent)) (w' : World),
      Fleet.get_status { f with reg := reg', w := w' }
        = .vdict [("status", .vstr "not_initialized")]) ∧
    (f.execute aid t).2.2.inited = true ∧
    (f.execute_pipeline pipeline ctx).2.2.inited = true ∧
    (f.execute_parallel ids tasks).2.inited = true ∧
    (f.execute_fan_out_fan_in cid workers ctx).2.inited = true := by
  refine ⟨?_, ?_, ?_, ?_, ?_, ?_⟩
  · simp [Fleet.get_status, hni]
  · intro reg' w'
    simp [Fleet.get_status, hni]
  · simp [Fleet.execute, Fleet.initFleet, hni]
  · simp [Fleet.execute_pipeline, Fleet.initFleet, hni]
  · simp [Fleet.execute_parallel, Fleet.initFleet, hni]
  · simp [Fleet.execute_fan_out_fan_in, Fleet.initFleet, hni]

/-- A fresh, not yet initialized fleet with one registered agent. -/
def coldFleet : Fleet :=
  { reg := [("demo-agent", demoAgent)], w := demoWorld,
    enable_routing := true, enable_learning := false, inited := false,
    router_stats := .vnone }

/-- Witness for C10: the concrete uninitialized fleet reports
`not_initialized`, and a single `execute` leaves the flag set. -/
theorem C10_witness :
    coldFleet.inited = false ∧
    coldFleet.get_status = .vdict [("status", .vstr "not_initialized")] ∧
    (coldFleet.execute "demo-agent" (QETask.create "t1" "demo" [])).2.2.inited = true := by
  have h := C10_status_and_auto_init coldFleet "demo-agent" (QETask.create "t1" "demo" [])
    [] [] [] [] "c" [] rfl
  exact ⟨rfl, h.1, h.2.2.1⟩
